import Mathlib

/-!
# Verification of the cybersecurity-dashboard data-shaping pipeline

A shallow embedding of the pipeline feeding the dashboard's charts:

* the filter engine of the interactive-filters component
  (`filteredCountries`, `clearFilters`, `handleSliderChange`,
  `metricRanges`, initial filter state);
* the aggregation engine of the comparison-chart component
  (`comparisonData` in its five modes, the custom-selection operations
  `addCountryToComparison` / `removeCountryFromComparison` /
  `clearAllCountries`);
* the geo-name reconciler of the geo-chart component (`getCountryMatch`
  with its alias table).

Numbers are modelled as rationals.  Numeric record fields are modelled as
`Option ℚ` because the TypeScript code defends against absent values with
`x || 0` at every read; `numOr0` is that coercion.  Lists stand for
JavaScript arrays, preserving order and multiplicity, and the in-place
`Array.prototype.sort` used by the top/bottom modes is modelled by the
stable `List.mergeSort` together with an explicit post-state function.
-/

namespace Dashboard

/-- One country record, after `services/api.ts` (`interface Country`).
Numeric fields can be absent in the ingested JSON, hence `Option ℚ`. -/
structure Country where
  Country : String
  Region : String
  CEI : Option ℚ
  GCI : Option ℚ
  NCSI : Option ℚ
  DDL : Option ℚ
  Risk_Category : String
  Risk_Score : Option ℚ
deriving DecidableEq

/-- The `x || 0` defensive coercion applied at every numeric field read. -/
def numOr0 (x : Option ℚ) : ℚ := x.getD 0

/-- Filter state of the interactive-filters component (`FilterState`). -/
structure FilterState where
  selectedRegions : List String
  selectedRiskCategories : List String
  ceiRange : ℚ × ℚ
  gciRange : ℚ × ℚ
  ncsiRange : ℚ × ℚ
  ddlRange : ℚ × ℚ
  riskScoreRange : ℚ × ℚ
  showAdvanced : Bool
deriving DecidableEq

/-- The filter state installed at mount (`useState<FilterState>({...})`). -/
def initialFilters : FilterState where
  selectedRegions := []
  selectedRiskCategories := []
  ceiRange := (0, 100)
  gciRange := (0, 100)
  ncsiRange := (0, 100)
  ddlRange := (0, 100)
  riskScoreRange := (0, 100)
  showAdvanced := false

/-- The predicate passed to `countries.filter` in `filteredCountries`,
with the source's early-return structure: each clause rejects and the
final fall-through accepts.  Display-scale conversion (`* 100` for CEI
and risk score) and the `|| 0` coercions are as in the source. -/
def passesFilters (filters : FilterState) (country : Country) : Bool :=
  if 0 < filters.selectedRegions.length ∧ country.Region ∉ filters.selectedRegions then
    false
  else if 0 < filters.selectedRiskCategories.length ∧
      country.Risk_Category ∉ filters.selectedRiskCategories then
    false
  else if numOr0 country.CEI * 100 < filters.ceiRange.1 ∨
      numOr0 country.CEI * 100 > filters.ceiRange.2 then
    false
  else if numOr0 country.GCI < filters.gciRange.1 ∨
      numOr0 country.GCI > filters.gciRange.2 then
    false
  else if numOr0 country.NCSI < filters.ncsiRange.1 ∨
      numOr0 country.NCSI > filters.ncsiRange.2 then
    false
  else if numOr0 country.DDL < filters.ddlRange.1 ∨
      numOr0 country.DDL > filters.ddlRange.2 then
    false
  else if numOr0 country.Risk_Score * 100 < filters.riskScoreRange.1 ∨
      numOr0 country.Risk_Score * 100 > filters.riskScoreRange.2 then
    false
  else true

/-- `filteredCountries` of the interactive-filters component. -/
def filteredCountries (countries : List Country) (filters : FilterState) : List Country :=
  countries.filter (passesFilters filters)

/-- A value lies in an inclusive `[min, max]` range. -/
def inRange (v : ℚ) (r : ℚ × ℚ) : Prop := r.1 ≤ v ∧ v ≤ r.2

/-- Modelled from the spec: the conjunction of the filter's clauses, each
stated independently — categorical clauses pass on membership or on an
empty selection set, numeric clauses compare the display-scale value
(CEI and risk score times 100, missing values coerced to 0) against the
inclusive configured range. -/
def satisfiesClauses (filters : FilterState) (c : Country) : Prop :=
  (c.Region ∈ filters.selectedRegions ∨ filters.selectedRegions = []) ∧
  (c.Risk_Category ∈ filters.selectedRiskCategories ∨ filters.selectedRiskCategories = []) ∧
  inRange (numOr0 c.CEI * 100) filters.ceiRange ∧
  inRange (numOr0 c.GCI) filters.gciRange ∧
  inRange (numOr0 c.NCSI) filters.ncsiRange ∧
  inRange (numOr0 c.DDL) filters.ddlRange ∧
  inRange (numOr0 c.Risk_Score * 100) filters.riskScoreRange

theorem passesFilters_iff (filters : FilterState) (c : Country) :
    passesFilters filters c = true ↔ satisfiesClauses filters c := by
  unfold passesFilters satisfiesClauses inRange
  split_ifs with h1 h2 h3 h4 h5 h6 h7
  · simp only [Bool.false_eq_true, false_iff]
    rintro ⟨hr, -, -, -, -, -, -⟩
    rcases hr with hm | he
    · exact h1.2 hm
    · rw [he] at h1
      exact absurd h1.1 (by simp)
  · simp only [Bool.false_eq_true, false_iff]
    rintro ⟨-, hr, -, -, -, -, -⟩
    rcases hr with hm | he
    · exact h2.2 hm
    · rw [he] at h2
      exact absurd h2.1 (by simp)
  · simp only [Bool.false_eq_true, false_iff]
    rintro ⟨-, -, hr, -, -, -, -⟩
    rcases h3 with h | h <;> linarith [hr.1, hr.2]
  · simp only [Bool.false_eq_true, false_iff]
    rintro ⟨-, -, -, hr, -, -, -⟩
    rcases h4 with h | h <;> linarith [hr.1, hr.2]
  · simp only [Bool.false_eq_true, false_iff]
    rintro ⟨-, -, -, -, hr, -, -⟩
    rcases h5 with h | h <;> linarith [hr.1, hr.2]
  · simp only [Bool.false_eq_true, false_iff]
    rintro ⟨-, -, -, -, -, hr, -⟩
    rcases h6 with h | h <;> linarith [hr.1, hr.2]
  · simp only [Bool.false_eq_true, false_iff]
    rintro ⟨-, -, -, -, -, -, hr⟩
    rcases h7 with h | h <;> linarith [hr.1, hr.2]
  · push_neg at h3 h4 h5 h6 h7
    simp only [true_iff]
    refine ⟨?_, ?_, ⟨h3.1, h3.2⟩, ⟨h4.1, h4.2⟩, ⟨h5.1, h5.2⟩, ⟨h6.1, h6.2⟩, ⟨h7.1, h7.2⟩⟩
    · by_cases hm : c.Region ∈ filters.selectedRegions
      · exact Or.inl hm
      · refine Or.inr ?_
        rcases Decidable.not_and_iff_or_not.mp h1 with hl | hm'
        · exact List.length_eq_zero.mp (by omega)
        · exact absurd hm (by simpa using hm')
    · by_cases hm : c.Risk_Category ∈ filters.selectedRiskCategories
      · exact Or.inl hm
      · refine Or.inr ?_
        rcases Decidable.not_and_iff_or_not.mp h2 with hl | hm'
        · exact List.length_eq_zero.mp (by omega)
        · exact absurd hm (by simpa using hm')

/-- C1: a record is in the output of `filteredCountries` iff it is in the
input and independently satisfies every clause of the filter — region
and risk-category membership (or an empty selection set), and each of
the five display-scale values (CEI and risk score times 100, missing
values coerced to 0) inside its inclusive `[min, max]` range. -/
theorem filteredCountries_mem_iff (countries : List Country) (filters : FilterState)
    (c : Country) :
    c ∈ filteredCountries countries filters ↔ c ∈ countries ∧ satisfiesClauses filters c := by
  simp [filteredCountries, List.mem_filter, passesFilters_iff]

/-- The data-model ranges on the coerced field values: CEI and risk
score on the 0–1 scale, GCI and NCSI on 0–100, DDL on 0–10. -/
def wellScaled (c : Country) : Prop :=
  0 ≤ numOr0 c.CEI ∧ numOr0 c.CEI ≤ 1 ∧
  0 ≤ numOr0 c.GCI ∧ numOr0 c.GCI ≤ 100 ∧
  0 ≤ numOr0 c.NCSI ∧ numOr0 c.NCSI ≤ 100 ∧
  0 ≤ numOr0 c.DDL ∧ numOr0 c.DDL ≤ 10 ∧
  0 ≤ numOr0 c.Risk_Score ∧ numOr0 c.Risk_Score ≤ 1

/-- C2: on a record set within the data model's documented scales, the
mount-default filter state (empty selection sets, all five ranges at
`[0, 100]`) is the identity — the very same list comes back, nothing
dropped, duplicated or reordered. -/
theorem filteredCountries_initial_id (countries : List Country)
    (h : ∀ c ∈ countries, wellScaled c) :
    filteredCountries countries initialFilters = countries := by
  unfold filteredCountries
  rw [List.filter_eq_self]
  intro c hc
  rw [passesFilters_iff]
  obtain ⟨h1, h2, h3, h4, h5, h6, h7, h8, h9, h10⟩ := h c hc
  refine ⟨Or.inr rfl, Or.inr rfl, ⟨?_, ?_⟩, ⟨?_, ?_⟩, ⟨?_, ?_⟩, ⟨?_, ?_⟩, ⟨?_, ?_⟩⟩ <;>
    simp only [initialFilters] <;> linarith

/-- Sample records for concrete evaluations, in the shape of the spec's
example scenario. -/
def sampleJapan : Country :=
  ⟨"Japan", "Asia", some (41/50), some 80, some 70, some 8, "High Risk", some (41/50)⟩

def sampleNorway : Country :=
  ⟨"Norway", "Europe", some (3/20), some 90, some 85, some 9, "Low Risk", some (3/20)⟩

def sampleBrazil : Country :=
  ⟨"Brazil", "South America", some (11/20), some 60, some 55, some 6, "Medium Risk",
    some (11/20)⟩

theorem filteredCountries_initial_id_witness :
    filteredCountries [sampleJapan, sampleNorway, sampleBrazil] initialFilters =
      [sampleJapan, sampleNorway, sampleBrazil] :=
  filteredCountries_initial_id [sampleJapan, sampleNorway, sampleBrazil] (by
    intro c hc
    fin_cases hc <;>
      norm_num [wellScaled, numOr0, sampleJapan, sampleNorway, sampleBrazil])

/-- Smallest element of a list of rationals, as `Math.min(...xs)` over a
spread; only ever applied to non-empty lists (the 0 default is dead). -/
def listMin : List ℚ → ℚ
  | [] => 0
  | x :: xs => xs.foldl min x

/-- Largest element, as `Math.max(...xs)`. -/
def listMax : List ℚ → ℚ
  | [] => 0
  | x :: xs => xs.foldl max x

/-- The `metricRanges` memo value. -/
structure MetricRanges where
  cei : ℚ × ℚ
  gci : ℚ × ℚ
  ncsi : ℚ × ℚ
  ddl : ℚ × ℚ
  riskScore : ℚ × ℚ
deriving DecidableEq

/-- `metricRanges`: `null` on an empty dataset; CEI and risk score are
hardcoded to `[0, 100]` (the source comments that they are already
normalized), while GCI, NCSI and DDL get the observed min/max of the
`|| 0`-coerced stored values. -/
def metricRanges (countries : List Country) : Option MetricRanges :=
  if countries.length = 0 then none
  else some
    { cei := (0, 100)
      gci := (listMin (countries.map fun c => numOr0 c.GCI),
              listMax (countries.map fun c => numOr0 c.GCI))
      ncsi := (listMin (countries.map fun c => numOr0 c.NCSI),
               listMax (countries.map fun c => numOr0 c.NCSI))
      ddl := (listMin (countries.map fun c => numOr0 c.DDL),
              listMax (countries.map fun c => numOr0 c.DDL))
      riskScore := (0, 100) }

/-- `clearFilters`: `metricRanges?.gci || [0, 100]` is `Option.elim`. -/
def clearFilters (countries : List Country) : FilterState where
  selectedRegions := []
  selectedRiskCategories := []
  ceiRange := (0, 100)
  gciRange := (metricRanges countries).elim (0, 100) (·.gci)
  ncsiRange := (metricRanges countries).elim (0, 100) (·.ncsi)
  ddlRange := (metricRanges countries).elim (0, 100) (·.ddl)
  riskScoreRange := (0, 100)
  showAdvanced := false

/-- Modelled from the spec: the full observed `[min, max]` of a metric's
display-scale values over the current dataset. -/
def observedRange (f : Country → ℚ) (countries : List Country) : ℚ × ℚ :=
  (listMin (countries.map f), listMax (countries.map f))

/-- A record whose CEI display value is 50, so the observed CEI display
range of the one-record dataset `[halfCei]` is `[50, 50]`. -/
def halfCei : Country :=
  ⟨"Testland", "Asia", some (1/2), some 30, some 40, some 5, "Medium Risk", some (3/10)⟩

/-- C4, counterexample: clearing filters over the dataset `[halfCei]`
sets the CEI range to the hardcoded `(0, 100)`, not to the observed
display-scale range `(50, 50)` of the current dataset. -/
theorem clearFilters_cei_not_observed :
    (clearFilters [halfCei]).ceiRange ≠
      observedRange (fun c => numOr0 c.CEI * 100) [halfCei] ∧
    observedRange (fun c => numOr0 c.CEI * 100) [halfCei] = (50, 50) ∧
    (clearFilters [halfCei]).ceiRange = (0, 100) := by
  refine ⟨?_, ?_, ?_⟩ <;>
    norm_num [clearFilters, observedRange, metricRanges, listMin, listMax, numOr0, halfCei,
      Prod.ext_iff]

/-- C4, amended: on a non-empty dataset, clearing filters resets both
selection sets to empty and the GCI, NCSI and DDL ranges to the full
observed `[min, max]` of the current dataset's (coerced) stored values,
but resets the CEI and risk-score ranges to the constant `(0, 100)`
full display scale rather than to observed bounds. -/
theorem clearFilters_spec (countries : List Country) (h : countries ≠ []) :
    clearFilters countries =
      { selectedRegions := []
        selectedRiskCategories := []
        ceiRange := (0, 100)
        gciRange := observedRange (fun c => numOr0 c.GCI) countries
        ncsiRange := observedRange (fun c => numOr0 c.NCSI) countries
        ddlRange := observedRange (fun c => numOr0 c.DDL) countries
        riskScoreRange := (0, 100)
        showAdvanced := false } := by
  have hlen : ¬ countries.length = 0 := by simpa using h
  simp [clearFilters, metricRanges, observedRange, hlen]

theorem clearFilters_spec_witness :
    clearFilters [halfCei] =
      { selectedRegions := []
        selectedRiskCategories := []
        ceiRange := (0, 100)
        gciRange := observedRange (fun c => numOr0 c.GCI) [halfCei]
        ncsiRange := observedRange (fun c => numOr0 c.NCSI) [halfCei]
        ddlRange := observedRange (fun c => numOr0 c.DDL) [halfCei]
        riskScoreRange := (0, 100)
        showAdvanced := false } :=
  clearFilters_spec [halfCei] (by decide)

/-- The metric addressed by a range slider (`field : keyof FilterState`
restricted to the five range fields that `handleSliderChange` is wired
to in the render tree). -/
inductive SliderField
  | cei | gci | ncsi | ddl | riskScore
deriving DecidableEq

/-- `handleSliderChange`: a computed-property assignment that stores the
incoming pair into the addressed range field as-is. -/
def handleSliderChange (filters : FilterState) (field : SliderField)
    (newValue : ℚ × ℚ) : FilterState :=
  match field with
  | .cei => { filters with ceiRange := newValue }
  | .gci => { filters with gciRange := newValue }
  | .ncsi => { filters with ncsiRange := newValue }
  | .ddl => { filters with ddlRange := newValue }
  | .riskScore => { filters with riskScoreRange := newValue }

/-- Projection of the range field addressed by a slider. -/
def sliderRange (filters : FilterState) (field : SliderField) : ℚ × ℚ :=
  match field with
  | .cei => filters.ceiRange
  | .gci => filters.gciRange
  | .ncsi => filters.ncsiRange
  | .ddl => filters.ddlRange
  | .riskScore => filters.riskScoreRange

/-- Some numeric range of the filter state is degenerate: min > max. -/
def hasInvertedRange (f : FilterState) : Prop :=
  f.ceiRange.2 < f.ceiRange.1 ∨ f.gciRange.2 < f.gciRange.1 ∨
  f.ncsiRange.2 < f.ncsiRange.1 ∨ f.ddlRange.2 < f.ddlRange.1 ∨
  f.riskScoreRange.2 < f.riskScoreRange.1

/-- A record sitting at display value 50 on every dimension, inside
`[40, 60]` under either a swapped or a clamped reading of `(60, 40)`. -/
def midCountry : Country :=
  ⟨"Midland", "Asia", some (1/2), some 50, some 50, some 50, "Medium Risk", some (1/2)⟩

/-- C7, counterexample: a slider update that delivers the inverted pair
`(60, 40)` is stored unnormalized (no swap, no clamp, no rejection),
and applying the resulting filter silently excludes every record — even
`midCountry`, whose risk display value 50 lies inside the range under
either normalization. -/
theorem invertedRange_applied_unnormalized :
    (handleSliderChange initialFilters SliderField.riskScore (60, 40)).riskScoreRange =
      (60, 40) ∧
    filteredCountries [midCountry]
      (handleSliderChange initialFilters SliderField.riskScore (60, 40)) = [] := by
  constructor
  · rfl
  · rw [filteredCountries, List.filter_eq_nil_iff]
    intro c hc
    rw [List.mem_singleton] at hc
    subst hc
    intro hpass
    have h7 := ((passesFilters_iff _ _).mp hpass).2.2.2.2.2.2
    have hlo := h7.1
    norm_num [handleSliderChange, initialFilters, midCountry, numOr0] at hlo

/-- C7, amended: no normalization happens anywhere between the slider
and the filter engine — `handleSliderChange` stores the incoming pair
verbatim into the addressed range — and a filter state with any
inverted range is applied as an unsatisfiable clause: the filter output
is empty for every record set. -/
theorem invertedRange_behavior :
    (∀ (f : FilterState) (field : SliderField) (v : ℚ × ℚ),
        sliderRange (handleSliderChange f field v) field = v) ∧
    (∀ (countries : List Country) (f : FilterState),
        hasInvertedRange f → filteredCountries countries f = []) := by
  constructor
  · intro f field v
    cases field <;> rfl
  · intro countries f hf
    rw [filteredCountries, List.filter_eq_nil_iff]
    intro c _
    intro hpass
    obtain ⟨-, -, h3, h4, h5, h6, h7⟩ := (passesFilters_iff f c).mp hpass
    rcases hf with h | h | h | h | h
    · linarith [h3.1, h3.2]
    · linarith [h4.1, h4.2]
    · linarith [h5.1, h5.2]
    · linarith [h6.1, h6.2]
    · linarith [h7.1, h7.2]

theorem invertedRange_behavior_witness :
    sliderRange (handleSliderChange initialFilters SliderField.gci (70, 10))
      SliderField.gci = (70, 10) ∧
    filteredCountries [midCountry]
      { initialFilters with gciRange := (70, 10) } = [] :=
  ⟨invertedRange_behavior.1 initialFilters SliderField.gci (70, 10),
   invertedRange_behavior.2 [midCountry] { initialFilters with gciRange := (70, 10) }
     (Or.inr (Or.inl (by norm_num [initialFilters])))⟩

/-! ## Comparison chart: aggregation engine and custom selection -/

/-- Comparator of the `topCountries` branch,
`(a, b) => (b.Risk_Score || 0) - (a.Risk_Score || 0)`: `a` sorts no
later than `b` exactly when the comparator is ≤ 0. -/
def descByRisk (a b : Country) : Bool :=
  decide (numOr0 b.Risk_Score ≤ numOr0 a.Risk_Score)

/-- Comparator of the `bottomCountries` branch,
`(a, b) => (a.Risk_Score || 0) - (b.Risk_Score || 0)`. -/
def ascByRisk (a b : Country) : Bool :=
  decide (numOr0 a.Risk_Score ≤ numOr0 b.Risk_Score)

/-- `countries.sort(descending comparator)`: the ES2019+ stable sort,
modelled by the stable `List.mergeSort`. -/
def sortedByRiskDesc (countries : List Country) : List Country :=
  countries.mergeSort descByRisk

def sortedByRiskAsc (countries : List Country) : List Country :=
  countries.mergeSort ascByRisk

/-- The records of the `topCountries` branch before row mapping:
sort descending by risk score, `slice(0, 10)`. -/
def topCountries (countries : List Country) : List Country :=
  (sortedByRiskDesc countries).take 10

/-- The records of the `bottomCountries` branch: sort ascending,
`slice(0, 10)`. -/
def bottomCountries (countries : List Country) : List Country :=
  (sortedByRiskAsc countries).take 10

/-- The countries state array after the `topCountries` branch has been
computed: `Array.prototype.sort` sorts its receiver in place (no copy
is taken first), so evaluating the branch leaves the state array in
descending-risk order. -/
def countriesAfterTopMode (countries : List Country) : List Country :=
  sortedByRiskDesc countries

theorem descByRisk_trans :
    ∀ a b c : Country, descByRisk a b → descByRisk b c → descByRisk a c := by
  intro a b c hab hbc
  simp only [descByRisk, decide_eq_true_eq] at *
  linarith

theorem descByRisk_total : ∀ a b : Country, descByRisk a b || descByRisk b a := by
  intro a b
  simp only [descByRisk, Bool.or_eq_true, decide_eq_true_eq]
  exact le_total _ _

theorem ascByRisk_trans :
    ∀ a b c : Country, ascByRisk a b → ascByRisk b c → ascByRisk a c := by
  intro a b c hab hbc
  simp only [ascByRisk, decide_eq_true_eq] at *
  linarith

theorem ascByRisk_total : ∀ a b : Country, ascByRisk a b || ascByRisk b a := by
  intro a b
  simp only [ascByRisk, Bool.or_eq_true, decide_eq_true_eq]
  exact le_total _ _

/-- C9: the claim is right and the code is not — computing the top-10
branch reorders the input collection, because the sort is in place.
On the two-record dataset `[sampleNorway, sampleJapan]` (risk 0.15
before risk 0.82) the state array afterwards is not the input array:
it has been reordered descending. -/
theorem topMode_mutates_input :
    countriesAfterTopMode [sampleNorway, sampleJapan] ≠ [sampleNorway, sampleJapan] := by
  intro h
  have hs := List.sorted_mergeSort descByRisk_trans descByRisk_total
    [sampleNorway, sampleJapan]
  rw [show countriesAfterTopMode [sampleNorway, sampleJapan] =
        List.mergeSort [sampleNorway, sampleJapan] descByRisk from rfl] at h
  rw [h] at hs
  have hNJ := (List.pairwise_cons.mp hs).1 sampleJapan (List.mem_singleton_self _)
  simp only [descByRisk, decide_eq_true_eq] at hNJ
  norm_num [numOr0, sampleJapan, sampleNorway] at hNJ

/-- `addCountryToComparison`: appends to the selection unless a record
with the same country name is already selected or 8 already are. -/
def addCountryToComparison (selectedCountries : List Country) (country : Country) :
    List Country :=
  if (selectedCountries.find? fun c => c.Country == country.Country).isNone ∧
      selectedCountries.length < 8 then
    selectedCountries ++ [country]
  else selectedCountries

/-- `removeCountryFromComparison`: drops the records carrying the given
country name, keeping the rest in order. -/
def removeCountryFromComparison (selectedCountries : List Country) (countryName : String) :
    List Country :=
  selectedCountries.filter fun c => c.Country != countryName

/-- `clearAllCountries`: resets the selection to empty. -/
def clearAllCountries : List Country := []

/-- C8: the custom-comparison selection invariants. Adding keeps the
size within the cap of 8; adding onto a full selection of 8 is a no-op;
adding a country whose name is already selected is a no-op; the add
either leaves the selection alone or appends at the end (so the
existing members keep their order); removal is a sublist of the input
(only shrinks, order preserved); clear-all yields the empty
selection. -/
theorem customSelection_invariants (s : List Country) (c : Country) (n : String) :
    (s.length ≤ 8 → (addCountryToComparison s c).length ≤ 8) ∧
    (s.length = 8 → addCountryToComparison s c = s) ∧
    ((∃ x ∈ s, x.Country = c.Country) → addCountryToComparison s c = s) ∧
    (addCountryToComparison s c = s ∨ addCountryToComparison s c = s ++ [c]) ∧
    List.Sublist (removeCountryFromComparison s n) s ∧
    clearAllCountries = ([] : List Country) := by
  refine ⟨?_, ?_, ?_, ?_, ?_, rfl⟩
  · intro hle
    unfold addCountryToComparison
    split_ifs with h
    · rw [List.length_append, List.length_singleton]
      omega
    · exact hle
  · intro h8
    unfold addCountryToComparison
    split_ifs with h
    · omega
    · rfl
  · rintro ⟨x, hxs, hxn⟩
    unfold addCountryToComparison
    split_ifs with h
    · exfalso
      rcases h with ⟨hnone, -⟩
      rw [Option.isNone_iff_eq_none, List.find?_eq_none] at hnone
      exact hnone x hxs (by simp [hxn])
    · rfl
  · unfold addCountryToComparison
    split_ifs with h
    · exact Or.inr rfl
    · exact Or.inl rfl
  · exact List.filter_sublist s

/-- An eight-member selection of pairwise distinct names. -/
def octet (i : ℕ) : Country :=
  ⟨"Octet " ++ toString i, "Asia", some 1, some 50, some 50, some 5, "Medium Risk", some 1⟩

def eightSelected : List Country :=
  [octet 0, octet 1, octet 2, octet 3, octet 4, octet 5, octet 6, octet 7]

theorem customSelection_invariants_witness :
    (addCountryToComparison eightSelected sampleJapan).length ≤ 8 ∧
    addCountryToComparison eightSelected sampleJapan = eightSelected ∧
    addCountryToComparison [sampleJapan] sampleJapan = [sampleJapan] ∧
    List.Sublist (removeCountryFromComparison [sampleJapan] "Japan") [sampleJapan] :=
  ⟨(customSelection_invariants eightSelected sampleJapan "Japan").1 (by
      rw [show eightSelected.length = 8 from rfl]),
   (customSelection_invariants eightSelected sampleJapan "Japan").2.1
     (show eightSelected.length = 8 from rfl),
   (customSelection_invariants [sampleJapan] sampleJapan "Japan").2.2.1
     ⟨sampleJapan, List.mem_singleton_self _, rfl⟩,
   (customSelection_invariants [sampleJapan] sampleJapan "Japan").2.2.2.2.1⟩

/-- Key order of the object built by
`countries.reduce((acc, country) => {...})`: JavaScript objects keep
string keys in first-insertion order, so `Object.entries` lists the
partition keys in order of first occurrence. -/
def firstKeys (f : Country → String) (countries : List Country) : List String :=
  countries.foldl (fun acc c => if f c ∈ acc then acc else acc ++ [f c]) []

/-- The reduce-built partition: each key in first-occurrence order with
its members in input order (the reduce pushes members as it meets
them). -/
def groupsBy (f : Country → String) (countries : List Country) :
    List (String × List Country) :=
  (firstKeys f countries).map fun k => (k, countries.filter fun c => f c == k)

/-- `Number(x.toFixed(1))`: round to one decimal place. -/
def round1 (q : ℚ) : ℚ := (round (q * 10) : ℚ) / 10

/-- `Number(x.toFixed(3))`: round to three decimal places. -/
def round3 (q : ℚ) : ℚ := (round (q * 1000) : ℚ) / 1000

/-- One bar-chart row of the `regions` / `riskLevels` branches of
`comparisonData`. -/
structure GroupRow where
  name : String
  CEI : ℚ
  GCI : ℚ
  NCSI : ℚ
  DDL : ℚ
  riskScore : ℚ
  count : ℕ
  originalCEI : ℚ
  originalRiskScore : ℚ
deriving DecidableEq

/-- The row built for one partition: per-indicator
`reduce((sum, c) => sum + (c.X || 0), 0) / group.length` averages, CEI
and risk score moved to the 0–100 display scale, one-decimal rounding
for the bars and three-decimal rounding for the tooltip originals. -/
def groupRow (name : String) (group : List Country) : GroupRow :=
  let avgCEI := group.foldl (fun sum c => sum + numOr0 c.CEI) 0 / group.length
  let avgGCI := group.foldl (fun sum c => sum + numOr0 c.GCI) 0 / group.length
  let avgNCSI := group.foldl (fun sum c => sum + numOr0 c.NCSI) 0 / group.length
  let avgDDL := group.foldl (fun sum c => sum + numOr0 c.DDL) 0 / group.length
  let avgRisk := group.foldl (fun sum c => sum + numOr0 c.Risk_Score) 0 / group.length
  { name := name
    CEI := round1 (avgCEI * 100)
    GCI := round1 avgGCI
    NCSI := round1 avgNCSI
    DDL := round1 avgDDL
    riskScore := round1 (avgRisk * 100)
    count := group.length
    originalCEI := round3 avgCEI
    originalRiskScore := round3 avgRisk }

/-- The `regions` branch of `comparisonData`: group by region, build the
average rows, sort descending by the rounded display risk score. -/
def regionsComparisonData (countries : List Country) : List GroupRow :=
  ((groupsBy Country.Region countries).map fun p => groupRow p.1 p.2).mergeSort
    fun a b => decide (b.riskScore ≤ a.riskScore)

/-- The `riskLevels` branch: group by risk category, build the average
rows, keep grouping order. -/
def riskLevelsComparisonData (countries : List Country) : List GroupRow :=
  (groupsBy Country.Risk_Category countries).map fun p => groupRow p.1 p.2

/-- Modelled from the spec: the arithmetic mean over the partition's
non-missing values of one indicator (a record with a missing value is
excluded from the sum and from the divisor). -/
def meanNonMissing (f : Country → Option ℚ) (group : List Country) : ℚ :=
  ((group.filterMap f).foldl (· + ·) 0) / (group.filterMap f).length

/-- A record whose CEI is absent in the ingested JSON. -/
def lacunaCei : Country :=
  ⟨"Lacuna", "Atlantic", none, some 50, some 50, some 5, "Medium Risk", some (1/2)⟩

/-- A record with CEI 0.8, same region and category as `lacunaCei`. -/
def fullCei : Country :=
  ⟨"Fulland", "Atlantic", some (4/5), some 50, some 50, some 5, "Medium Risk", some (1/2)⟩

/-- C6, counterexample: in the single Atlantic region partition
`[lacunaCei, fullCei]`, the engine's CEI mean is 40 — the missing CEI
is coerced to 0 in the sum while the record still counts in the
divisor — whereas the mean over the non-missing CEI values is 0.8,
display 80. -/
theorem regionMean_counts_missing :
    groupsBy Country.Region [lacunaCei, fullCei] =
      [("Atlantic", [lacunaCei, fullCei])] ∧
    (groupRow "Atlantic" [lacunaCei, fullCei]).CEI = 40 ∧
    round1 (meanNonMissing Country.CEI [lacunaCei, fullCei] * 100) = 80 ∧
    (groupRow "Atlantic" [lacunaCei, fullCei]).CEI ≠
      round1 (meanNonMissing Country.CEI [lacunaCei, fullCei] * 100) := by
  refine ⟨rfl, ?_, ?_, ?_⟩ <;>
    norm_num [groupRow, meanNonMissing, round1, numOr0, lacunaCei, fullCei,
      List.filterMap, round_eq]

/-- C6, amended: each per-partition statistic of a region or
risk-category row is the rounded mean over *all* members, a missing
value entering the sum as 0 while the record still counts in the
divisor (`count` is the full member count). -/
theorem groupRow_mean_coerced (countries : List Country) (p : String × List Country)
    (hp : p ∈ groupsBy Country.Region countries ∨
          p ∈ groupsBy Country.Risk_Category countries) :
    (groupRow p.1 p.2).CEI =
      round1 ((p.2.map fun c => numOr0 c.CEI).foldl (· + ·) 0 / p.2.length * 100) ∧
    (groupRow p.1 p.2).GCI =
      round1 ((p.2.map fun c => numOr0 c.GCI).foldl (· + ·) 0 / p.2.length) ∧
    (groupRow p.1 p.2).NCSI =
      round1 ((p.2.map fun c => numOr0 c.NCSI).foldl (· + ·) 0 / p.2.length) ∧
    (groupRow p.1 p.2).DDL =
      round1 ((p.2.map fun c => numOr0 c.DDL).foldl (· + ·) 0 / p.2.length) ∧
    (groupRow p.1 p.2).riskScore =
      round1 ((p.2.map fun c => numOr0 c.Risk_Score).foldl (· + ·) 0 / p.2.length * 100) ∧
    (groupRow p.1 p.2).count = p.2.length := by
  refine ⟨?_, ?_, ?_, ?_, ?_, rfl⟩ <;>
    simp only [groupRow, List.foldl_map]

theorem groupRow_mean_coerced_witness :
    (groupRow "Atlantic" [lacunaCei, fullCei]).CEI =
      round1 (([lacunaCei, fullCei].map fun c => numOr0 c.CEI).foldl (· + ·) 0 /
        ([lacunaCei, fullCei] : List Country).length * 100) ∧
    (groupRow "Atlantic" [lacunaCei, fullCei]).count =
      ([lacunaCei, fullCei] : List Country).length :=
  ⟨(groupRow_mean_coerced [lacunaCei, fullCei] ("Atlantic", [lacunaCei, fullCei])
      (Or.inl (by simp [groupsBy, firstKeys, lacunaCei, fullCei]))).1,
   (groupRow_mean_coerced [lacunaCei, fullCei] ("Atlantic", [lacunaCei, fullCei])
      (Or.inl (by simp [groupsBy, firstKeys, lacunaCei, fullCei]))).2.2.2.2.2⟩

/-! ## Top-10 / bottom-10 disjointness -/

theorem length_filter_lt_of_mem {α : Type} {l : List α} {p : α → Bool} {x : α}
    (hx : x ∈ l) (hpx : p x = false) : (l.filter p).length < l.length := by
  induction l with
  | nil => cases hx
  | cons a t ih =>
    rw [List.filter_cons]
    rcases List.mem_cons.mp hx with rfl | hxt
    · rw [hpx]
      simp only [Bool.false_eq_true, if_false, List.length_cons]
      exact Nat.lt_succ_of_le (List.length_filter_le p t)
    · by_cases hpa : p a = true
      · rw [hpa, if_pos rfl, List.length_cons, List.length_cons]
        exact Nat.succ_lt_succ (ih hxt)
      · rw [Bool.not_eq_true] at hpa
        rw [hpa]
        simp only [Bool.false_eq_true, if_false, List.length_cons]
        exact Nat.lt_succ_of_lt (ih hxt)

theorem take_rel_drop {α : Type} {R : α → α → Prop} {L : List α} (hL : L.Pairwise R)
    (k : ℕ) {x y : α} (hx : x ∈ L.take k) (hy : y ∈ L.drop k) : R x y := by
  rw [← List.take_append_drop k L] at hL
  exact (List.pairwise_append.mp hL).2.2 x hx y hy

/-- In a list sorted by `le`, an element of the first `k` positions is
`le`-above everything later, so a predicate false on it and on all its
`le`-successors selects fewer than `k` elements. -/
theorem length_filter_lt_of_sorted_take {α : Type} {le : α → α → Bool} {L : List α}
    (hs : L.Pairwise fun a b => le a b = true) {x : α} {k : ℕ} (hx : x ∈ L.take k)
    (hk : k ≤ L.length) {p : α → Bool} (hpx : p x = false)
    (hcomp : ∀ y, le x y = true → p y = false) :
    (L.filter p).length < k := by
  have hdrop : (L.drop k).filter p = [] := by
    rw [List.filter_eq_nil_iff]
    intro y hy
    rw [hcomp y (take_rel_drop hs k hx hy)]
    simp
  have htakelen : (L.take k).length = k := by
    rw [List.length_take]
    omega
  have htake := length_filter_lt_of_mem hx hpx
  rw [htakelen] at htake
  conv_lhs => rw [show L = L.take k ++ L.drop k from (List.take_append_drop k L).symm]
  rw [List.filter_append, List.length_append, hdrop]
  simpa using htake

/-- Fewer than 10 records of the input can strictly out-risk a member of
the top-10 slice. -/
theorem top_count_gt_le (l : List Country) (x : Country)
    (hlen : 20 ≤ l.length) (hx : x ∈ topCountries l) :
    (l.filter fun y => decide (numOr0 x.Risk_Score < numOr0 y.Risk_Score)).length ≤ 9 := by
  have hperm := List.mergeSort_perm l descByRisk
  have hsorted := List.sorted_mergeSort descByRisk_trans descByRisk_total l
  have hL : (List.mergeSort l descByRisk).length = l.length := hperm.length_eq
  have hlt :=
    length_filter_lt_of_sorted_take hsorted hx (by omega)
      (p := fun y => decide (numOr0 x.Risk_Score < numOr0 y.Risk_Score))
      (by simp) ?_
  · have := (hperm.filter fun y =>
      decide (numOr0 x.Risk_Score < numOr0 y.Risk_Score)).length_eq
    omega
  · intro y hxy
    simp only [descByRisk, decide_eq_true_eq] at hxy
    simpa using not_lt.mpr hxy

/-- Fewer than 10 records of the input can strictly under-risk a member
of the bottom-10 slice. -/
theorem bottom_count_lt_le (l : List Country) (x : Country)
    (hlen : 20 ≤ l.length) (hx : x ∈ bottomCountries l) :
    (l.filter fun y => decide (numOr0 y.Risk_Score < numOr0 x.Risk_Score)).length ≤ 9 := by
  have hperm := List.mergeSort_perm l ascByRisk
  have hsorted := List.sorted_mergeSort ascByRisk_trans ascByRisk_total l
  have hL : (List.mergeSort l ascByRisk).length = l.length := hperm.length_eq
  have hlt :=
    length_filter_lt_of_sorted_take hsorted hx (by omega)
      (p := fun y => decide (numOr0 y.Risk_Score < numOr0 x.Risk_Score))
      (by simp) ?_
  · have := (hperm.filter fun y =>
      decide (numOr0 y.Risk_Score < numOr0 x.Risk_Score)).length_eq
    omega
  · intro y hxy
    simp only [ascByRisk, decide_eq_true_eq] at hxy
    simpa using not_lt.mpr hxy

/-- Under pairwise-distinct risk scores, at most one record shares any
given risk value. -/
theorem count_eq_le_one {l : List Country}
    (hdist : l.Pairwise fun a b => numOr0 a.Risk_Score ≠ numOr0 b.Risk_Score)
    (x : Country) :
    (l.filter fun y => decide (numOr0 y.Risk_Score = numOr0 x.Risk_Score)).length ≤ 1 := by
  have hpw := List.Pairwise.sublist
    (List.filter_sublist (p := fun y => decide (numOr0 y.Risk_Score = numOr0 x.Risk_Score)) l)
    hdist
  cases hfl : l.filter fun y => decide (numOr0 y.Risk_Score = numOr0 x.Risk_Score) with
  | nil => simp
  | cons a t =>
    cases t with
    | nil => simp
    | cons b u =>
      exfalso
      rw [hfl] at hpw
      have hab := (List.pairwise_cons.mp hpw).1 b (List.mem_cons_self b u)
      have ha : numOr0 a.Risk_Score = numOr0 x.Risk_Score := by
        have := List.mem_filter.mp (hfl ▸ List.mem_cons_self a (b :: u))
        simpa using this.2
      have hb : numOr0 b.Risk_Score = numOr0 x.Risk_Score := by
        have := List.mem_filter.mp
          (hfl ▸ List.mem_cons_of_mem a (List.mem_cons_self b u))
        simpa using this.2
      exact hab (ha.trans hb.symm)

/-- Every record falls in exactly one of the three risk comparisons
against a fixed record. -/
theorem length_risk_trichotomy (l : List Country) (x : Country) :
    l.length =
      (l.filter fun y => decide (numOr0 x.Risk_Score < numOr0 y.Risk_Score)).length +
      (l.filter fun y => decide (numOr0 y.Risk_Score < numOr0 x.Risk_Score)).length +
      (l.filter fun y => decide (numOr0 y.Risk_Score = numOr0 x.Risk_Score)).length := by
  induction l with
  | nil => rfl
  | cons a t ih =>
    rw [List.filter_cons, List.filter_cons, List.filter_cons]
    rcases lt_trichotomy (numOr0 a.Risk_Score) (numOr0 x.Risk_Score) with h | h | h
    · rw [decide_eq_false (asymm h), decide_eq_true h, decide_eq_false (ne_of_lt h)]
      simp only [Bool.false_eq_true, if_false, if_true, List.length_cons]
      omega
    · rw [decide_eq_false (h ▸ lt_irrefl _), decide_eq_false (h ▸ lt_irrefl _),
        decide_eq_true h]
      simp only [Bool.false_eq_true, if_false, if_true, List.length_cons]
      omega
    · rw [decide_eq_true h, decide_eq_false (asymm h),
        decide_eq_false (Ne.symm (ne_of_lt h))]
      simp only [Bool.false_eq_true, if_false, if_true, List.length_cons]
      omega

/-- C5, amended: on a dataset of at least 20 records whose risk scores
are pairwise distinct, the top-10 and bottom-10 slices are disjoint. -/
theorem top_bottom_disjoint (l : List Country) (x : Country)
    (hlen : 20 ≤ l.length)
    (hdist : l.Pairwise fun a b => numOr0 a.Risk_Score ≠ numOr0 b.Risk_Score)
    (htop : x ∈ topCountries l) : x ∉ bottomCountries l := by
  intro hbot
  have h1 := top_count_gt_le l x hlen htop
  have h2 := bottom_count_lt_le l x hlen hbot
  have h3 := count_eq_le_one hdist x
  have h4 := length_risk_trichotomy l x
  omega

/-- One of twenty records with strictly decreasing risk scores. -/
def dsc (i : ℕ) : Country :=
  ⟨"Desc " ++ toString i, "Asia", some (mkRat 1 2), some 50, some 50, some 5,
    "Medium Risk", some (mkRat (100 - i) 100)⟩

/-- Twenty records already in strictly descending risk order. -/
def descTwenty : List Country :=
  [dsc 0, dsc 1, dsc 2, dsc 3, dsc 4, dsc 5, dsc 6, dsc 7, dsc 8, dsc 9, dsc 10,
   dsc 11, dsc 12, dsc 13, dsc 14, dsc 15, dsc 16, dsc 17, dsc 18, dsc 19]

theorem descTwenty_sorted : descTwenty.Pairwise fun a b => descByRisk a b = true := by
  decide

theorem top_bottom_disjoint_witness : dsc 0 ∉ bottomCountries descTwenty :=
  top_bottom_disjoint descTwenty (dsc 0)
    (by rw [show descTwenty.length = 20 from rfl])
    (by decide)
    (by
      rw [show topCountries descTwenty =
            (List.mergeSort descTwenty descByRisk).take 10 from rfl,
        List.mergeSort_of_sorted descTwenty_sorted]
      exact List.mem_cons_self _ _)

/-- One of twenty records tied at risk score 0.5. -/
def tiedRec (i : ℕ) : Country :=
  ⟨"Tied " ++ toString i, "Asia", some (1/2), some 50, some 50, some 5, "Medium Risk",
    some (1/2)⟩

/-- Twenty records, pairwise distinct names, identical risk scores. -/
def tiedTwenty : List Country :=
  [tiedRec 0, tiedRec 1, tiedRec 2, tiedRec 3, tiedRec 4, tiedRec 5, tiedRec 6,
   tiedRec 7, tiedRec 8, tiedRec 9, tiedRec 10, tiedRec 11, tiedRec 12, tiedRec 13,
   tiedRec 14, tiedRec 15, tiedRec 16, tiedRec 17, tiedRec 18, tiedRec 19]

theorem tiedRec_risk (i : ℕ) : numOr0 (tiedRec i).Risk_Score = 1/2 := rfl

theorem mem_tiedTwenty {x : Country} (hx : x ∈ tiedTwenty) : ∃ i, x = tiedRec i := by
  fin_cases hx <;> exact ⟨_, rfl⟩

theorem tiedTwenty_pairwise_desc :
    tiedTwenty.Pairwise fun a b => descByRisk a b = true := by
  refine List.pairwise_iff_forall_sublist.mpr fun {a b} hsub => ?_
  obtain ⟨i, rfl⟩ := mem_tiedTwenty (hsub.subset (List.mem_cons_self a [b]))
  obtain ⟨j, rfl⟩ :=
    mem_tiedTwenty (hsub.subset (List.mem_cons_of_mem _ (List.mem_cons_self b [])))
  simp [descByRisk, tiedRec_risk]

theorem tiedTwenty_pairwise_asc :
    tiedTwenty.Pairwise fun a b => ascByRisk a b = true := by
  refine List.pairwise_iff_forall_sublist.mpr fun {a b} hsub => ?_
  obtain ⟨i, rfl⟩ := mem_tiedTwenty (hsub.subset (List.mem_cons_self a [b]))
  obtain ⟨j, rfl⟩ :=
    mem_tiedTwenty (hsub.subset (List.mem_cons_of_mem _ (List.mem_cons_self b [])))
  simp [ascByRisk, tiedRec_risk]

/-- C5, counterexample: on twenty records all tied at the same risk
score, the stable sorts leave the list as-is in both directions, so the
top-10 and the bottom-10 slices are the same ten records — not
disjoint, although the dataset has (exactly) 20 records. -/
theorem top_bottom_overlap :
    20 ≤ tiedTwenty.length ∧
    tiedRec 0 ∈ topCountries tiedTwenty ∧ tiedRec 0 ∈ bottomCountries tiedTwenty := by
  refine ⟨by rw [show tiedTwenty.length = 20 from rfl], ?_, ?_⟩
  · rw [show topCountries tiedTwenty =
        (List.mergeSort tiedTwenty descByRisk).take 10 from rfl,
      List.mergeSort_of_sorted tiedTwenty_pairwise_desc]
    exact List.mem_cons_self _ _
  · rw [show bottomCountries tiedTwenty =
        (List.mergeSort tiedTwenty ascByRisk).take 10 from rfl,
      List.mergeSort_of_sorted tiedTwenty_pairwise_asc]
    exact List.mem_cons_self _ _

/-! ## Geo-name reconciler -/

/-- The static alias table `nameMapping` of `getCountryMatch`. -/
def nameMapping : List (String × String) :=
  [("United States of America", "United States"),
   ("Russian Federation", "Russia"),
   ("Korea, Republic of", "South Korea"),
   ("Korea, Democratic People\x27s Republic of", "North Korea"),
   ("Iran, Islamic Republic of", "Iran"),
   ("Syrian Arab Republic", "Syria"),
   ("Venezuela, Bolivarian Republic of", "Venezuela"),
   ("Bolivia, Plurinational State of", "Bolivia"),
   ("Tanzania, United Republic of", "Tanzania"),
   ("Congo, Democratic Republic of the", "Democratic Republic of Congo"),
   ("Congo, Republic of the", "Republic of Congo"),
   ("Macedonia, the former Yugoslav Republic of", "North Macedonia"),
   ("Moldova, Republic of", "Moldova"),
   ("Palestinian Territory, Occupied", "Palestine"),
   ("Lao People\x27s Democratic Republic", "Laos"),
   ("Viet Nam", "Vietnam"),
   ("Myanmar", "Myanmar"),
   ("Brunei Darussalam", "Brunei")]

/-- `nameMapping[geoCountryName]`: case-sensitive key lookup in the
object literal. -/
def lookupMapping (geoCountryName : String) : Option String :=
  (nameMapping.find? fun p => p.1 == geoCountryName).map Prod.snd

/-- `s.toLowerCase()`, modelled on the string's character list (the
names in play are ASCII, where JavaScript and `Char.toLower` agree). -/
def lowerChars (s : String) : List Char := s.data.map Char.toLower

/-- `a.includes(b)`: substring containment. -/
def strIncludes (a b : List Char) : Bool := decide (List.IsInfix b a)

/-- The tier-1 (and tier-2) record predicate: case-insensitive exact
name equality, `c.Country.toLowerCase() === name.toLowerCase()`. -/
def exactNameMatch (name : String) (c : Country) : Bool :=
  lowerChars c.Country == lowerChars name

/-- The tier-3 record predicate: case-insensitive substring containment
in either direction. -/
def partialNameMatch (geoCountryName : String) (c : Country) : Bool :=
  strIncludes (lowerChars c.Country) (lowerChars geoCountryName) ||
  strIncludes (lowerChars geoCountryName) (lowerChars c.Country)

/-- `getCountryMatch` of the geo chart, with the source's early
returns: direct case-insensitive match first; then the alias table
followed by exact match on the aliased name; then partial matching;
else no record. -/
def getCountryMatch (countries : List Country) (geoCountryName : String) : Option Country :=
  match countries.find? (exactNameMatch geoCountryName) with
  | some m => some m
  | none =>
    match (lookupMapping geoCountryName).bind
        (fun mappedName => countries.find? (exactNameMatch mappedName)) with
    | some m => some m
    | none => countries.find? (partialNameMatch geoCountryName)

/-- Modelled from the spec: resolution tier 1 — case-insensitive exact
match of the polygon's name against a record's name. -/
def matchTier1 (countries : List Country) (polygonName : String) : Option Country :=
  countries.find? (exactNameMatch polygonName)

/-- Modelled from the spec: tier 2 — alias-table lookup of the
polygon's name, then exact match against the aliased name. -/
def matchTier2 (countries : List Country) (polygonName : String) : Option Country :=
  (lookupMapping polygonName).bind fun aliased =>
    countries.find? (exactNameMatch aliased)

/-- Modelled from the spec: tier 3 — case-insensitive substring
containment in either direction. -/
def matchTier3 (countries : List Country) (polygonName : String) : Option Country :=
  countries.find? (partialNameMatch polygonName)

/-- Modelled from the spec: the first tier that matches wins; if none
matches the result is null. -/
def matchSpec (countries : List Country) (polygonName : String) : Option Country :=
  ((matchTier1 countries polygonName).orElse fun _ =>
    matchTier2 countries polygonName).orElse fun _ =>
      matchTier3 countries polygonName

/-- C3: the matcher is exactly the three-tier first-match-wins cascade
of the spec (exact, then alias, then substring, else null); with no
exact "Russian Federation" record present, the polygon name "Russian
Federation" resolves through the alias table to the first record named
"Russia"; and "Atlantis" resolves to nothing when no record's name is
exactly or partially related to it. -/
theorem getCountryMatch_spec :
    (∀ (countries : List Country) (polygonName : String),
        getCountryMatch countries polygonName = matchSpec countries polygonName) ∧
    (∀ (countries : List Country) (r : Country),
        (∀ c ∈ countries, exactNameMatch "Russian Federation" c = false) →
        countries.find? (exactNameMatch "Russia") = some r →
        getCountryMatch countries "Russian Federation" = some r) ∧
    (∀ countries : List Country,
        (∀ c ∈ countries, exactNameMatch "Atlantis" c = false ∧
            partialNameMatch "Atlantis" c = false) →
        getCountryMatch countries "Atlantis" = none) := by
  refine ⟨?_, ?_, ?_⟩
  · intro countries polygonName
    unfold getCountryMatch matchSpec matchTier1 matchTier2 matchTier3
    cases countries.find? (exactNameMatch polygonName) with
    | some m => rfl
    | none =>
      cases (lookupMapping polygonName).bind
          (fun mappedName => countries.find? (exactNameMatch mappedName)) with
      | some m => rfl
      | none => rfl
  · intro countries r h1 h2
    unfold getCountryMatch
    have ht1 : countries.find? (exactNameMatch "Russian Federation") = none := by
      rw [List.find?_eq_none]
      intro x hx
      simp [h1 x hx]
    rw [ht1, show lookupMapping "Russian Federation" = some "Russia" from rfl]
    simp only [Option.some_bind]
    rw [h2]
  · intro countries h
    unfold getCountryMatch
    have ht1 : countries.find? (exactNameMatch "Atlantis") = none := by
      rw [List.find?_eq_none]
      intro x hx
      simp [(h x hx).1]
    have ht3 : countries.find? (partialNameMatch "Atlantis") = none := by
      rw [List.find?_eq_none]
      intro x hx
      simp [(h x hx).2]
    rw [ht1, show lookupMapping "Atlantis" = none from rfl]
    simpa using ht3

/-- The dataset record named "Russia". -/
def russiaRec : Country :=
  ⟨"Russia", "Europe", some (mkRat 1 5), some 70, some 70, some 7, "Low Risk",
    some (mkRat 1 5)⟩

theorem getCountryMatch_spec_witness :
    getCountryMatch [sampleBrazil, russiaRec] "Russian Federation" = some russiaRec ∧
    getCountryMatch [sampleBrazil, russiaRec] "Atlantis" = none :=
  ⟨getCountryMatch_spec.2.1 [sampleBrazil, russiaRec] russiaRec (by decide) (by decide),
   getCountryMatch_spec.2.2 [sampleBrazil, russiaRec] (by decide)⟩

theorem find?_append_cons {α : Type} (p : α → Bool) (l₁ l₂ : List α) (x : α)
    (hx : p x = true) :
    ∃ r, (l₁ ++ x :: l₂).find? p = some r ∧ p r = true ∧ (r ∈ l₁ ∨ r = x) := by
  induction l₁ with
  | nil => exact ⟨x, by simp [List.find?_cons_of_pos _ hx], hx, Or.inr rfl⟩
  | cons a t ih =>
    by_cases hpa : p a = true
    · exact ⟨a, by simp [List.find?_cons_of_pos _ hpa], hpa,
        Or.inl (List.mem_cons_self a t)⟩
    · obtain ⟨r, hfind, hpr, hr⟩ := ih
      refine ⟨r, ?_, hpr, ?_⟩
      · rw [List.cons_append, List.find?_cons_of_neg _ (by simpa using hpa), hfind]
      · rcases hr with h | h
        · exact Or.inl (List.mem_cons_of_mem a h)
        · exact Or.inr h

/-- C10: at the highest applicable tier, the earliest record of the
record sequence wins. In each tier, if some record `x` at an arbitrary
position satisfies the tier's predicate (and every earlier tier is
empty-handed), then the matcher returns a record satisfying that
predicate occurring no later than `x` — so the result is determined by
the record order, not by any unordered iteration. -/
theorem getCountryMatch_earliest (polygonName : String) (l₁ l₂ : List Country)
    (x : Country) :
    (exactNameMatch polygonName x = true →
      ∃ r, getCountryMatch (l₁ ++ x :: l₂) polygonName = some r ∧
        exactNameMatch polygonName r = true ∧ (r ∈ l₁ ∨ r = x)) ∧
    (∀ aliased, (∀ c ∈ l₁ ++ x :: l₂, exactNameMatch polygonName c = false) →
      lookupMapping polygonName = some aliased → exactNameMatch aliased x = true →
      ∃ r, getCountryMatch (l₁ ++ x :: l₂) polygonName = some r ∧
        exactNameMatch aliased r = true ∧ (r ∈ l₁ ∨ r = x)) ∧
    ((∀ c ∈ l₁ ++ x :: l₂, exactNameMatch polygonName c = false) →
      (lookupMapping polygonName).bind
        (fun mappedName => (l₁ ++ x :: l₂).find? (exactNameMatch mappedName)) = none →
      partialNameMatch polygonName x = true →
      ∃ r, getCountryMatch (l₁ ++ x :: l₂) polygonName = some r ∧
        partialNameMatch polygonName r = true ∧ (r ∈ l₁ ∨ r = x)) := by
  refine ⟨?_, ?_, ?_⟩
  · intro hx
    obtain ⟨r, hfind, hpr, hr⟩ := find?_append_cons (exactNameMatch polygonName) l₁ l₂ x hx
    refine ⟨r, ?_, hpr, hr⟩
    unfold getCountryMatch
    rw [hfind]
  · intro aliased h1 hlk hx
    obtain ⟨r, hfind, hpr, hr⟩ := find?_append_cons (exactNameMatch aliased) l₁ l₂ x hx
    refine ⟨r, ?_, hpr, hr⟩
    unfold getCountryMatch
    have ht1 : (l₁ ++ x :: l₂).find? (exactNameMatch polygonName) = none := by
      rw [List.find?_eq_none]
      intro c hc
      simp [h1 c hc]
    rw [ht1, hlk]
    simp only [Option.some_bind]
    rw [hfind]
  · intro h1 h2 hx
    obtain ⟨r, hfind, hpr, hr⟩ := find?_append_cons (partialNameMatch polygonName) l₁ l₂ x hx
    refine ⟨r, ?_, hpr, hr⟩
    unfold getCountryMatch
    have ht1 : (l₁ ++ x :: l₂).find? (exactNameMatch polygonName) = none := by
      rw [List.find?_eq_none]
      intro c hc
      simp [h1 c hc]
    rw [ht1, h2, hfind]

theorem getCountryMatch_earliest_witness :
    ∃ r, getCountryMatch [sampleNorway, sampleJapan] "Japan" = some r ∧
      exactNameMatch "Japan" r = true ∧ (r ∈ [sampleNorway] ∨ r = sampleJapan) :=
  (getCountryMatch_earliest "Japan" [sampleNorway] [] sampleJapan).1 (by decide)

end Dashboard
